import Mathlib

/-!
Verification of the TDM backend's pipeline-orchestration core against its
specification.  The Python services are shallowly embedded as pure Lean
functions: `services/decision_engine.py` (intent classification),
`services/subsetting.py` (the FK-aware subsetter's extraction loop),
`services/workflow_orchestrator.py` (step gating and identifier chaining),
`services/fallbacks.py` (the fallback layer), and the Job-row status/
`finished_at` writes those services perform.  Stateful code (database rows,
job records) is modelled by explicit state passing; fallible calls return
`Except`/`Option` values.
-/

set_option maxRecDepth 4000

namespace TDM

/-! ## Python-truthiness helpers

The services test presence with Python truthiness: `None` and the empty
string are falsy, `None` and the empty list are falsy. -/

/-- Truthiness of an optional string argument (`if connection_string:`). -/
def strTruthy : Option String → Bool
  | none => false
  | some s => !(s == "")

/-- Truthiness of an optional list argument (`if test_case_urls:`). -/
def listTruthy : Option (List String) → Bool
  | none => false
  | some l => !l.isEmpty

/-- The whitespace set of Python's `str.strip()` / regex `\s`. -/
def isPySpace (c : Char) : Bool :=
  c == ' ' || c == '\t' || c == '\n' || c == '\r' || c == Char.ofNat 11 || c == Char.ofNat 12

/-- Python `bool(s.strip())`: the string has a non-whitespace character. -/
def stripTruthy (s : String) : Bool :=
  !(s.toList.all isPySpace)

/-- Rule-2 url signal (`decision_engine.py:62`): `test_case_urls and any(u.strip() for u in test_case_urls)`. -/
def urlsSignal : Option (List String) → Bool
  | none => false
  | some l => !l.isEmpty && l.any stripTruthy

/-- Boolean `contains` agrees with list membership. -/
theorem contains_eq_true_iff {α : Type} [BEq α] [LawfulBEq α] (l : List α) (a : α) :
    l.contains a = true ↔ a ∈ l :=
  List.elem_iff

/-! ## Decision engine (`services/decision_engine.py`) -/

/-- The canonical operation order of `classify_intent` (line 101). -/
def intent_order : List String :=
  ["discover", "pii", "subset", "mask", "synthetic", "provision", "schema_fusion", "quality"]

/-- First loop of the dedup/ordering block (`decision_engine.py:104-107`):
walk the canonical order, keeping operations present in the raw list and not
yet seen.  State is `(seen, ordered)`. -/
def canonicalPass (raw : List String) : List String → List String → List String →
    List String × List String
  | seen, ordered, [] => (seen, ordered)
  | seen, ordered, op :: rest =>
    if raw.contains op && !(seen.contains op) then
      canonicalPass raw (seen ++ [op]) (ordered ++ [op]) rest
    else
      canonicalPass raw seen ordered rest

/-- Second loop of the dedup/ordering block (`decision_engine.py:108-111`):
append raw operations not yet seen, in discovery order. -/
def leftoverPass : List String → List String → List String → List String × List String
  | seen, ordered, [] => (seen, ordered)
  | seen, ordered, op :: rest =>
    if !(seen.contains op) then
      leftoverPass (seen ++ [op]) (ordered ++ [op]) rest
    else
      leftoverPass seen ordered rest

/-- The dedup-and-order block of `classify_intent` (`decision_engine.py:100-112`). -/
def dedup_and_order (order raw : List String) : List String :=
  let p := canonicalPass raw [] [] order
  (leftoverPass p.1 p.2 raw).2

/-- The `Intent` dictionary built by `classify_intent` (`decision_engine.py:43-50`). -/
structure Intent where
  requires_ui_crawl : Bool
  requires_db : Bool
  requires_api : Bool
  requires_domain_fallback : Bool
  operations : List String
  preferred_synthetic_mode : String
deriving DecidableEq

/-- Core of `classify_intent` (`decision_engine.py:23-115`) over the boolean
signals the Python code branches on: `cs` = connection string truthy,
`subsetEnabled` = `"subset" in config_flags.get("operations", []) or
config_flags.get("enable_subset", True)`, `urlsSig` = urls present with a
non-blank entry (rule 2), `urlsT` = urls list truthy (rule 5), `domT` =
domain truthy, `contentT` = content truthy, `contentFF` = content truthy and
`_has_form_fields(content)`, `schemaT` = schema_version_id truthy.  The
sequential `intent` mutations of the source become a chain of lets. -/
def classify_intent_core (cs subsetEnabled urlsSig urlsT domT contentT contentFF schemaT :
    Bool) : Intent :=
  let ops0 : List String := []
  let ops1 :=
    if cs then
      let a := if ops0.contains "discover" then ops0 else ops0 ++ ["discover"]
      let b := if subsetEnabled then a ++ ["subset"] else a
      b ++ ["pii"]
    else ops0
  let crawl := urlsSig
  let ops2 :=
    if urlsSig then (if ops1.contains "synthetic" then ops1 else ops1 ++ ["synthetic"])
    else ops1
  let mode2 := if urlsSig then "url" else "schema"
  let ops3 :=
    if domT then (if ops2.contains "synthetic" then ops2 else ops2 ++ ["synthetic"])
    else ops2
  let mode3 := if domT && !crawl && !schemaT then "domain" else mode2
  let ops4 :=
    if contentT && contentFF then
      (if ops3.contains "synthetic" then ops3 else ops3 ++ ["synthetic"])
    else ops3
  let mode4 := if (contentT && contentFF) && !crawl then "test_case" else mode3
  let fb := !schemaT && !cs && (domT || contentT || urlsT)
  let ops5 :=
    if fb then (if ops4.contains "synthetic" then ops4 else ops4 ++ ["synthetic"])
    else ops4
  let mode5 :=
    if fb then (if domT && (contentT || urlsT) then "hybrid" else "domain") else mode4
  let ops6 :=
    if schemaT || cs then
      (if ops5.contains "pii" then ops5 else ops5 ++ ["pii"]) ++ ["mask"]
    else ops5
  let ops7 :=
    if ops6.contains "synthetic" || ops6.contains "subset" then
      (if ops6.contains "provision" then ops6 else ops6 ++ ["provision"])
    else ops6
  { requires_ui_crawl := crawl
    requires_db := cs
    requires_api := false
    requires_domain_fallback := fb
    operations := dedup_and_order intent_order ops7
    preferred_synthetic_mode := mode5 }

/-- The `config_flags` map of `classify_intent`; `enable_subset` defaults to
`True` when the key is absent (`decision_engine.py:57`). -/
structure ConfigFlags where
  operations : List String := []
  enable_subset : Bool := true

/-! ## Regular-expression embedding for `_has_form_fields`

`_has_form_fields` (`decision_engine.py:118-133`) tests five regular
expressions with `re.search` against the lowercased content.  The patterns
use only literals, the classes `\w`, `\s`, `["']`, `[^"']`, `[^)]`, opt,
plus/star of a single-character class, alternation, and a leading `\b`.
`runRx` returns every suffix left after a match of the expression at the
head of the input, so `re.search` becomes: some start position admits a
match. -/

/-- Python regex `\w`: ASCII letters, digits and underscore (the test-case
content handled by this system is ASCII). -/
def isWordChar (c : Char) : Bool :=
  c.isAlpha || c.isDigit || c == '_'

/-- A quote character, the class `["']`. -/
def isQuoteChar (c : Char) : Bool :=
  c == Char.ofNat 34 || c == Char.ofNat 39

/-- Regular expressions over the constructs the five patterns need: a literal
string, a single character from a class, `?`, `+`/`*` of a character class,
concatenation, alternation. -/
inductive Rx where
  | lit (cs : List Char)
  | cls (p : Char → Bool)
  | opt (r : Rx)
  | plusC (p : Char → Bool)
  | starC (p : Char → Bool)
  | seq (a b : Rx)
  | alt (a b : Rx)

/-- Suffixes reachable by consuming one or more `p`-characters. -/
def plusSuffixes (p : Char → Bool) : List Char → List (List Char)
  | [] => []
  | c :: rest => if p c then rest :: plusSuffixes p rest else []

/-- All suffixes of `s` remaining after some match of `r` at the head of `s`. -/
def runRx : Rx → List Char → List (List Char)
  | .lit cs, s => if cs.isPrefixOf s then [s.drop cs.length] else []
  | .cls _, [] => []
  | .cls p, c :: rest => if p c then [rest] else []
  | .opt r, s => s :: runRx r s
  | .plusC p, s => plusSuffixes p s
  | .starC p, s => s :: plusSuffixes p s
  | .seq a b, s => (runRx a s).flatMap (runRx b)
  | .alt a b, s => runRx a s ++ runRx b s

/-- Word boundary `\b` at position `i` of `s`: exactly one of the neighbouring positions
holds a word character (out-of-range counts as non-word). -/
def wordBoundaryAt (s : List Char) (i : Nat) : Bool :=
  let at_ := fun j : Nat => match s.drop j with
    | [] => false
    | c :: _ => isWordChar c
  ((i != 0 && at_ (i - 1)) != at_ i)

/-- Search semantics of `re.search`: the pattern (with an optional leading `\b`) matches starting
at some position of `s`. -/
def searchRx (leadingWb : Bool) (r : Rx) (s : List Char) : Bool :=
  (List.range (s.length + 1)).any fun i =>
    (!leadingWb || wordBoundaryAt s i) && !(runRx r (s.drop i)).isEmpty

/-- The alternation `(?:enter|fill|input|type)`. -/
def fillVerb : Rx :=
  .alt (.lit "enter".toList)
    (.alt (.lit "fill".toList) (.alt (.lit "input".toList) (.lit "type".toList)))

/-- Pattern 1 of `_has_form_fields`, after the leading `\b`:
`(?:enter|fill|input|type)\s+["']?\w+["']?\s+as\s+`. -/
def patFillAs : Rx :=
  .seq fillVerb (.seq (.plusC isPySpace) (.seq (.opt (.cls isQuoteChar))
    (.seq (.plusC isWordChar) (.seq (.opt (.cls isQuoteChar))
      (.seq (.plusC isPySpace) (.seq (.lit "as".toList) (.plusC isPySpace)))))))

/-- Pattern 2, after the leading `\b`:
`(?:enter|fill|input|type)\s+["'][^"']+["']\s+in\s+`. -/
def patFillIn : Rx :=
  .seq fillVerb (.seq (.plusC isPySpace) (.seq (.cls isQuoteChar)
    (.seq (.plusC fun c => !isQuoteChar c) (.seq (.cls isQuoteChar)
      (.seq (.plusC isPySpace) (.seq (.lit "in".toList) (.plusC isPySpace)))))))

/-- Pattern 3: `send_keys\s*\([^)]+\)`. -/
def patSendKeys : Rx :=
  .seq (.lit "send_keys".toList) (.seq (.starC isPySpace) (.seq (.lit "(".toList)
    (.seq (.plusC fun c => !(c == ')')) (.lit ")".toList))))

/-- Pattern 4: `\.fill\s*\([^)]+\)`. -/
def patDotFill : Rx :=
  .seq (.lit ".fill".toList) (.seq (.starC isPySpace) (.seq (.lit "(".toList)
    (.seq (.plusC fun c => !(c == ')')) (.lit ")".toList))))

/-- Pattern 5: `\.type\s*\([^)]+\)`. -/
def patDotType : Rx :=
  .seq (.lit ".type".toList) (.seq (.starC isPySpace) (.seq (.lit "(".toList)
    (.seq (.plusC fun c => !(c == ')')) (.lit ")".toList))))

/-- The pattern list of `_has_form_fields` (`decision_engine.py:122-128`),
paired with whether the pattern starts with `\b`. -/
def formFieldPatterns : List (Bool × Rx) :=
  [(true, patFillAs), (true, patFillIn), (false, patSendKeys),
   (false, patDotFill), (false, patDotType)]

/-- ASCII lowering of one character, as Python's `str.lower()` acts on the
ASCII test-case content this system handles. -/
def pyLowerChar (c : Char) : Char :=
  if 65 ≤ c.toNat && c.toNat ≤ 90 then Char.ofNat (c.toNat + 32) else c

/-- Embedding of `_has_form_fields` (`decision_engine.py:118-133`): false for empty or
all-whitespace content, else true when some pattern matches the lowercased
content. -/
def has_form_fields (content : String) : Bool :=
  if content == "" || !(stripTruthy content) then false
  else
    let content_lower := content.toList.map pyLowerChar
    formFieldPatterns.any fun pr => searchRx pr.1 pr.2 content_lower

/-- Modelled from the spec: `SyntheticDataGenerator.test_case_needs_synthetic_data`,
the stand-alone "does this test case need synthetic data" check, is not under
`src/` (only its tests `tests/test_synthetic_enhanced.py` and its caller
`routers/workflow.py:312` are).  Per the spec it returns the pattern-detection
verdict together with a reason: the empty string yields needs-data `false`
with a reason indicating emptiness; matching fill content yields `true`;
navigation/click-only content yields `false` with a navigation reason. -/
def test_case_needs_synthetic_data (content : String) : Bool × String :=
  if content == "" || !(stripTruthy content) then
    (false, "empty test case content")
  else if has_form_fields content then
    (true, "form fill patterns detected")
  else
    (false, "navigation or click-only content")

/-- Embedding of `classify_intent` (`decision_engine.py:23-115`): computes the boolean
signals from the raw optional inputs with Python truthiness, then runs the
rule chain.  Rule 4 guards `_has_form_fields` behind content truthiness, so
passing `""` for an absent content argument is equivalent to the source. -/
def classify_intent_with (formFields : String → Bool)
    (test_case_content : Option String) (test_case_urls : Option (List String))
    (connection_string : Option String) (domain : Option String)
    (schema_version_id : Option String) (config_flags : ConfigFlags) : Intent :=
  classify_intent_core
    (strTruthy connection_string)
    (config_flags.operations.contains "subset" || config_flags.enable_subset)
    (urlsSignal test_case_urls)
    (listTruthy test_case_urls)
    (strTruthy domain)
    (strTruthy test_case_content)
    (formFields (test_case_content.getD ""))
    (strTruthy schema_version_id)


/-- Wrapper applying `classify_intent_with` to the real pattern detector. -/
def classify_intent (test_case_content : Option String)
    (test_case_urls : Option (List String)) (connection_string : Option String)
    (domain : Option String) (schema_version_id : Option String)
    (config_flags : ConfigFlags) : Intent :=
  classify_intent_with has_form_fields test_case_content test_case_urls
    connection_string domain schema_version_id config_flags

/-- Over all boolean signal combinations, the classifier's operations list has
no duplicates and is the canonical order restricted to its own members. -/
theorem classify_core_ops_canonical : ∀ cs se us ut d ct cf st : Bool,
    ((classify_intent_core cs se us ut d ct cf st).operations).Nodup ∧
    (classify_intent_core cs se us ut d ct cf st).operations =
      intent_order.filter (fun op =>
        (classify_intent_core cs se us ut d ct cf st).operations.contains op) := by
  decide

/-- With a truthy connection string, `discover` and `pii` are always among the
classifier's operations, whatever the other signals. -/
theorem classify_core_discover_pii : ∀ se us ut d ct cf st : Bool,
    "discover" ∈ (classify_intent_core true se us ut d ct cf st).operations ∧
    "pii" ∈ (classify_intent_core true se us ut d ct cf st).operations := by
  decide

/-- C3: for every combination of inputs, the operations list returned by
`classify_intent` contains no duplicates and is ordered by the canonical
order discover, pii, subset, mask, synthetic, provision, schema_fusion,
quality.  The list equals the canonical order restricted to its own members,
so (vacuously) nothing outside that vocabulary appears: the classifier only
ever emits canonical operations, and each appears at most once. -/
theorem C3_operations_canonical_order (content : Option String)
    (urls : Option (List String)) (conn dom sv : Option String)
    (flags : ConfigFlags) :
    ((classify_intent content urls conn dom sv flags).operations).Nodup ∧
    (classify_intent content urls conn dom sv flags).operations =
      intent_order.filter (fun op =>
        (classify_intent content urls conn dom sv flags).operations.contains op) :=
  classify_core_ops_canonical _ _ _ _ _ _ _ _

/-- C7: with a truthy (non-empty) connection string, `classify_intent` always
includes `discover` and `pii` in its operations; with every input absent it
returns the minimal intent with an empty operations list.  The embedding is a
total pure function, so it never raises and its output is a deterministic
function of its inputs. -/
theorem C7_classify_intent_signals :
    (∀ (content : Option String) (urls : Option (List String)) (s : String)
        (dom sv : Option String) (flags : ConfigFlags), s ≠ "" →
      "discover" ∈ (classify_intent content urls (some s) dom sv flags).operations ∧
      "pii" ∈ (classify_intent content urls (some s) dom sv flags).operations) ∧
    classify_intent none none none none none {} =
      { requires_ui_crawl := false, requires_db := false, requires_api := false,
        requires_domain_fallback := false, operations := [],
        preferred_synthetic_mode := "schema" } := by
  constructor
  · intro content urls s dom sv flags hs
    have hb : strTruthy (some s) = true := by simp [strTruthy, hs]
    simp only [classify_intent, classify_intent_with, hb]
    exact classify_core_discover_pii _ _ _ _ _ _ _
  · decide

/-- C7 witness: a concrete non-empty connection string yields `discover` and
`pii`. -/
theorem C7_witness :
    "discover" ∈ (classify_intent none none (some "postgresql://h/db") none none
      {}).operations ∧
    "pii" ∈ (classify_intent none none (some "postgresql://h/db") none none
      {}).operations :=
  C7_classify_intent_signals.1 none none "postgresql://h/db" none none {} (by decide)

/-- C8: the needs-data pattern check classifies "Enter email as
test@example.com" as needing data, classifies the click-only contents
"click on shop now" and "click on add to cart" as not needing data, and the
stand-alone check classifies the empty string as not needing data with a
reason indicating emptiness. -/
theorem C8_pattern_detection :
    has_form_fields "Enter email as test@example.com" = true ∧
    has_form_fields "click on shop now" = false ∧
    has_form_fields "click on add to cart" = false ∧
    test_case_needs_synthetic_data "" = (false, "empty test case content") := by
  refine ⟨by decide, by decide, by decide, by decide⟩

/-! ## FK-aware subsetter (`services/subsetting.py`)

`run_subset`'s extraction loop (lines 83-135) is embedded as a pure fold
over the schema's table enumeration.  Source queries are modelled by a total
map from table name to row list (the claims under study do not involve
per-table query failures).  The IN-clause placeholder builder (line 125)
renders integer keys bare and other keys quoted, so cell values are modelled
as integers or strings compared by equality. -/

/-- A database cell value. -/
inductive Val where
  | int (n : Int) : Val
  | str (s : String) : Val
deriving DecidableEq

/-- A row: an association of column name to a possibly NULL value. -/
abbrev Row := List (String × Option Val)

/-- Column access `df[col]` on a row; an absent column reads as NULL. -/
def getCol (r : Row) (c : String) : Option Val :=
  match r.lookup c with
  | some v => v
  | none => none

/-- Behaviour of pandas `Series.unique()`: distinct values in
first-occurrence order, tracked with a seen accumulator. -/
def uniqueFirstAux {α : Type} [DecidableEq α] (seen : List α) : List α → List α
  | [] => []
  | v :: rest =>
    if seen.contains v then uniqueFirstAux seen rest
    else v :: uniqueFirstAux (seen ++ [v]) rest

/-- Distinct values of a list in first-occurrence order. -/
def uniqueFirst {α : Type} [DecidableEq α] (l : List α) : List α :=
  uniqueFirstAux [] l

/-- The distinct, non-null values of a column over a row set:
`extracted[parent_t][pcol].dropna().unique()` (`subsetting.py:121`). -/
def distinctColumn (rows : List Row) (pcol : String) : List Val :=
  uniqueFirst ((rows.map fun r => getCol r pcol).filterMap id)

/-- Inputs of the extraction loop: the schema-version's table enumeration and
FK map (as `_build_fk_map` returns it: child table to a list of
(parent table, parent column, child column) triples), the source database
contents, and the caller's root table, filters and row caps. -/
structure SubsetEnv where
  table_names : List String
  fk_map : List (String × List (String × String × String))
  dbRows : String → List Row
  root_table : String
  filters : List (String × List (String × Val))
  max_rows : List (String × Nat)

/-- `default_max = max_rows.get("*", 100_000)` (`subsetting.py:81`). -/
def defaultMax (env : SubsetEnv) : Nat :=
  (env.max_rows.lookup "*").getD 100000

/-- `max_rows.get(t, default_max)` (`subsetting.py:93,111,131`). -/
def rowLimit (env : SubsetEnv) (t : String) : Nat :=
  (env.max_rows.lookup t).getD (defaultMax env)

/-- Root fallback (`subsetting.py:84-85`): an unknown root table is replaced
by the first table of the enumeration. -/
def resolvedRoot (env : SubsetEnv) : String :=
  if env.table_names.contains env.root_table then env.root_table
  else
    match env.table_names with
    | [] => env.root_table
    | t :: _ => t

/-- The AND-combined equality filter clause of the root query
(`subsetting.py:89-92`); a NULL column never equals a filter value, as in
SQL. -/
def rowMatches (conds : List (String × Val)) (r : Row) : Bool :=
  conds.all fun kv => getCol r kv.1 == some kv.2

/-- Root-table extraction (`subsetting.py:86-100`): filter, then the LIMIT /
`head` cap (the SQL LIMIT and the following `head` use the same bound, so one
truncation suffices). -/
def rootExtract (env : SubsetEnv) : List Row :=
  let root := resolvedRoot env
  let conds := (env.filters.lookup root).getD []
  ((env.dbRows root).filter (rowMatches conds)).take (rowLimit env root)

/-- The child-row IN-clause test (`subsetting.py:125-130`): the row's FK
column equals one of the key values; a NULL FK never matches, as in SQL. -/
def fkMatch (keys : List Val) (ccol : String) (r : Row) : Bool :=
  match getCol r ccol with
  | some v => keys.contains v
  | none => false

/-- One iteration of the extraction loop (`subsetting.py:103-135`) over the
accumulated `extracted` map (an association list in insertion order, as a
Python dict): skip the root; a table with no FK edges is extracted whole and
capped; a table whose first FK edge's parent is not yet extracted is skipped;
otherwise the child rows matching the first 10000 distinct non-null parent
keys are fetched and capped. -/
def processTable (env : SubsetEnv) (extracted : List (String × List Row))
    (child_t : String) : List (String × List Row) :=
  if child_t == resolvedRoot env then extracted
  else
    match (env.fk_map.lookup child_t).getD [] with
    | [] => extracted ++ [(child_t, (env.dbRows child_t).take (rowLimit env child_t))]
    | (parent_t, pcol, ccol) :: _ =>
      match extracted.lookup parent_t with
      | none => extracted
      | some parentRows =>
        let parent_ids := distinctColumn parentRows pcol
        if parent_ids.isEmpty then extracted ++ [(child_t, [])]
        else
          extracted ++ [(child_t,
            ((env.dbRows child_t).filter
              (fkMatch (parent_ids.take 10000) ccol)).take (rowLimit env child_t))]

/-- The full extraction of `run_subset` (`subsetting.py:83-135`): the root
first, then every table in enumeration order. -/
def run_subset_extract (env : SubsetEnv) : List (String × List Row) :=
  env.table_names.foldl (processTable env) [(resolvedRoot env, rootExtract env)]

/-- Membership in the deduplication accumulator run. -/
theorem mem_uniqueFirstAux {α : Type} [DecidableEq α] (a : α) :
    ∀ (l seen : List α), a ∈ uniqueFirstAux seen l ↔ a ∈ l ∧ a ∉ seen := by
  intro l
  induction l with
  | nil => intro seen; simp [uniqueFirstAux]
  | cons v rest ih =>
    intro seen
    rw [uniqueFirstAux]
    by_cases hv : seen.contains v = true
    · rw [if_pos hv, ih]
      rw [contains_eq_true_iff] at hv
      constructor
      · rintro ⟨h1, h2⟩
        exact ⟨List.mem_cons_of_mem v h1, h2⟩
      · rintro ⟨h1, h2⟩
        rcases List.mem_cons.mp h1 with rfl | h1
        · exact absurd hv h2
        · exact ⟨h1, h2⟩
    · rw [if_neg hv]
      rw [Bool.not_eq_true, ← Bool.not_eq_true, contains_eq_true_iff] at hv
      by_cases hav : a = v
      · subst hav
        simp [hv]
      · simp only [List.mem_cons, hav, false_or]
        rw [ih]
        simp [List.mem_append, hav]

/-- Membership is invariant under first-occurrence deduplication. -/
theorem mem_uniqueFirst {α : Type} [DecidableEq α] (a : α) (l : List α) :
    a ∈ uniqueFirst l ↔ a ∈ l := by
  rw [uniqueFirst, mem_uniqueFirstAux]
  simp

/-- The accumulator run fixes a duplicate-free list disjoint from `seen`. -/
theorem uniqueFirstAux_eq_self {α : Type} [DecidableEq α] :
    ∀ (l seen : List α), l.Nodup → (∀ x ∈ l, x ∉ seen) →
      uniqueFirstAux seen l = l := by
  intro l
  induction l with
  | nil => intro seen _ _; rfl
  | cons v rest ih =>
    intro seen hnd hdis
    rw [uniqueFirstAux]
    have hvs : seen.contains v = false := by
      rw [← Bool.not_eq_true, contains_eq_true_iff]
      exact hdis v (List.mem_cons_self v rest)
    rw [if_neg (by rw [hvs]; exact Bool.false_ne_true)]
    congr 1
    apply ih (seen ++ [v]) (List.nodup_cons.mp hnd).2
    intro x hx
    rw [List.mem_append]
    rintro (h1 | h1)
    · exact hdis x (List.mem_cons_of_mem v hx) h1
    · rw [List.mem_singleton] at h1
      exact (List.nodup_cons.mp hnd).1 (h1 ▸ hx)

/-- First-occurrence deduplication fixes a list without duplicates. -/
theorem uniqueFirst_eq_self {α : Type} [DecidableEq α] (l : List α) (h : l.Nodup) :
    uniqueFirst l = l :=
  uniqueFirstAux_eq_self l [] h (by simp)

/-- Looking a key up past an association-list chunk that lacks it. -/
theorem lookup_append_of_none {β : Type} (l₁ l₂ : List (String × β)) (a : String)
    (h : l₁.lookup a = none) : (l₁ ++ l₂).lookup a = l₂.lookup a := by
  induction l₁ with
  | nil => simp
  | cons p rest ih =>
    rw [List.cons_append, List.lookup_cons]
    rw [List.lookup_cons] at h
    by_cases hb : (a == p.1) = true
    · rw [hb] at h; exact absurd h (by simp)
    · rw [Bool.not_eq_true] at hb
      rw [hb] at h ⊢
      exact ih h

/-- Reduction of the extraction step for a child with a resolvable first FK
edge to an already-extracted parent. -/
theorem processTable_linked (env : SubsetEnv) (ext : List (String × List Row))
    (child parent_t pcol ccol : String) (rest : List (String × String × String))
    (parentRows : List Row)
    (hroot : (child == resolvedRoot env) = false)
    (hfk : (env.fk_map.lookup child).getD [] = (parent_t, pcol, ccol) :: rest)
    (hpar : ext.lookup parent_t = some parentRows) :
    processTable env ext child =
      if (distinctColumn parentRows pcol).isEmpty then ext ++ [(child, [])]
      else ext ++ [(child,
        ((env.dbRows child).filter
          (fkMatch ((distinctColumn parentRows pcol).take 10000) ccol)).take
          (rowLimit env child))] := by
  unfold processTable
  rw [hfk]
  simp [hroot, hpar]

/-- C1 (amended): for a child table whose first FK edge points at an
already-extracted parent, the extraction takes the distinct non-null values
of the parent's referenced column from the parent's extracted rows; an empty
distinct set yields an empty child extraction (no error); otherwise the child
rows whose FK value is among the first 10000 of those distinct values are
fetched and head-truncated to the row cap.  When the distinct set has at most
10000 values the fetch predicate is exactly "the FK value is non-null and
equals the referenced column of some extracted parent row", so the single-hop
child result is exactly the capped set of rows whose FK value matches an
extracted parent key. -/
theorem C1_single_hop_link (env : SubsetEnv) (ext : List (String × List Row))
    (child parent_t pcol ccol : String) (rest : List (String × String × String))
    (parentRows : List Row)
    (hroot : (child == resolvedRoot env) = false)
    (hfk : (env.fk_map.lookup child).getD [] = (parent_t, pcol, ccol) :: rest)
    (hpar : ext.lookup parent_t = some parentRows) :
    (distinctColumn parentRows pcol = [] →
      processTable env ext child = ext ++ [(child, [])]) ∧
    (distinctColumn parentRows pcol ≠ [] →
      processTable env ext child = ext ++ [(child,
        ((env.dbRows child).filter
          (fkMatch ((distinctColumn parentRows pcol).take 10000) ccol)).take
          (rowLimit env child))]) ∧
    ((distinctColumn parentRows pcol).length ≤ 10000 → ∀ r : Row,
      fkMatch ((distinctColumn parentRows pcol).take 10000) ccol r = true ↔
        ∃ v, getCol r ccol = some v ∧
          some v ∈ parentRows.map fun pr => getCol pr pcol) := by
  have hstep := processTable_linked env ext child parent_t pcol ccol rest parentRows
    hroot hfk hpar
  refine ⟨?_, ?_, ?_⟩
  · intro hd
    rw [hstep, hd]
    simp
  · intro hd
    rw [hstep, if_neg]
    simp [List.isEmpty_iff, hd]
  · intro hlen r
    rw [List.take_of_length_le hlen]
    unfold fkMatch
    cases hv : getCol r ccol with
    | none => simp
    | some v =>
      rw [contains_eq_true_iff]
      unfold distinctColumn
      rw [mem_uniqueFirst]
      simp only [List.mem_filterMap, id_eq, Option.some.injEq]
      constructor
      · rintro ⟨a, ha, rfl⟩
        exact ⟨v, rfl, ha⟩
      · rintro ⟨w, hw, hmem'⟩
        exact ⟨some v, by rw [hw]; exact hmem', rfl⟩

/-- C4 (amended): a non-root table with no FK edges at all is extracted
directly, capped and unfiltered; but a non-root table whose first FK edge's
parent table is not already extracted is skipped entirely — it is omitted
from the extraction, not extracted directly. -/
theorem C4_edgeless_and_skipped (env : SubsetEnv) (ext : List (String × List Row))
    (child : String) (hroot : (child == resolvedRoot env) = false) :
    ((env.fk_map.lookup child).getD [] = [] →
      processTable env ext child =
        ext ++ [(child, (env.dbRows child).take (rowLimit env child))]) ∧
    (∀ (parent_t pcol ccol : String) (rest : List (String × String × String)),
      (env.fk_map.lookup child).getD [] = (parent_t, pcol, ccol) :: rest →
      ext.lookup parent_t = none →
      processTable env ext child = ext) := by
  constructor
  · intro hfk
    unfold processTable
    rw [hfk]
    simp [hroot]
  · intro parent_t pcol ccol rest hfk hpar
    unfold processTable
    rw [hfk]
    simp [hroot, hpar]

/-- C10: when linking a child table to its extracted parent, only the first
10000 distinct non-null parent-key values are used to select child rows: a
child row whose FK value is a distinct parent key outside that prefix is
excluded from the child's extraction even though its parent row was
extracted. -/
theorem C10_first_10000_parent_keys (env : SubsetEnv)
    (ext : List (String × List Row)) (child parent_t pcol ccol : String)
    (rest : List (String × String × String)) (parentRows : List Row)
    (r : Row) (v : Val)
    (hroot : (child == resolvedRoot env) = false)
    (hfk : (env.fk_map.lookup child).getD [] = (parent_t, pcol, ccol) :: rest)
    (hpar : ext.lookup parent_t = some parentRows)
    (hchild : ext.lookup child = none)
    (hv : getCol r ccol = some v)
    (hmem : v ∈ distinctColumn parentRows pcol)
    (hout : v ∉ (distinctColumn parentRows pcol).take 10000) :
    r ∉ ((processTable env ext child).lookup child).getD [] := by
  have hstep := processTable_linked env ext child parent_t pcol ccol rest parentRows
    hroot hfk hpar
  have hne : (distinctColumn parentRows pcol).isEmpty = false := by
    rw [List.isEmpty_eq_false]
    intro h0
    rw [h0] at hmem
    exact absurd hmem (List.not_mem_nil v)
  rw [hstep, if_neg (by simp [hne])]
  rw [lookup_append_of_none _ _ _ hchild]
  simp only [List.lookup_cons_self, Option.getD_some]
  intro hr
  have hr2 := List.mem_of_mem_take hr
  have hp := List.of_mem_filter hr2
  rw [fkMatch, hv, contains_eq_true_iff] at hp
  exact hout hp

/-! ## Concrete subsetter instances -/

/-- Integer key value for a natural index. -/
def natKey (n : Nat) : Val := Val.int (Int.ofNat n)

/-- A parent table with 10001 rows carrying the distinct keys 0..10000. -/
def bigParentRows : List Row :=
  (List.range 10001).map fun n => [("id", some (natKey n))]

/-- A child row referencing the 10001st distinct parent key. -/
def childRowBig : Row := [("pid", some (natKey 10000))]

/-- Two-table schema `parent(id) <- child(pid)` whose parent holds 10001
distinct keys and whose child has one row referencing key 10000. -/
def envBig : SubsetEnv :=
  { table_names := ["parent", "child"]
    fk_map := [("child", [("parent", "id", "pid")])]
    dbRows := fun t =>
      if t == "parent" then bigParentRows
      else if t == "child" then [childRowBig]
      else []
    root_table := "parent"
    filters := []
    max_rows := [] }

theorem bigParentRows_length : bigParentRows.length = 10001 := by
  unfold bigParentRows
  rw [List.length_map, List.length_range]

theorem filterMap_id_map_some {α β : Type} (f : α → β) (l : List α) :
    ((l.map fun a => some (f a)).filterMap id) = l.map f := by
  induction l with
  | nil => rfl
  | cons a t ih => simp [List.filterMap_cons, ih]

theorem distinct_bigParentRows :
    distinctColumn bigParentRows "id" = (List.range 10001).map natKey := by
  unfold distinctColumn
  have h1 : (bigParentRows.map fun r => getCol r "id") =
      (List.range 10001).map fun n => some (natKey n) := by
    unfold bigParentRows
    rw [List.map_map]
    rfl
  rw [h1, filterMap_id_map_some]
  apply uniqueFirst_eq_self
  apply List.Nodup.map _ (List.nodup_range 10001)
  intro a b h
  simpa [natKey] using h

theorem mem_distinct_big : natKey 10000 ∈ (List.range 10001).map natKey := by
  simp only [List.mem_map, List.mem_range]
  exact ⟨10000, by norm_num, rfl⟩

theorem not_mem_distinct_big_take :
    natKey 10000 ∉ ((List.range 10001).map natKey).take 10000 := by
  rw [← List.map_take, List.take_range]
  simp only [List.mem_map, List.mem_range]
  rintro ⟨a, ha, h⟩
  have ha2 : (a : Int) = 10000 := by simpa [natKey] using h
  omega

theorem rootExtract_envBig : rootExtract envBig = bigParentRows := by
  simp only [rootExtract]
  have hres : resolvedRoot envBig = "parent" := by decide
  rw [hres]
  have hconds : ((envBig.filters.lookup "parent").getD [] : List (String × Val)) = [] := by
    simp [envBig]
  rw [hconds]
  have hdb : envBig.dbRows "parent" = bigParentRows := by
    simp [envBig]
  have hfilter : (envBig.dbRows "parent").filter (rowMatches []) = envBig.dbRows "parent" :=
    List.filter_eq_self.mpr fun a _ => rfl
  rw [hfilter, hdb]
  have hlimit : rowLimit envBig "parent" = 100000 := by
    simp [rowLimit, defaultMax, envBig]
  rw [hlimit]
  exact List.take_of_length_le (by rw [bigParentRows_length]; norm_num)

theorem run_envBig :
    run_subset_extract envBig = [("parent", bigParentRows), ("child", [])] := by
  unfold run_subset_extract
  rw [show envBig.table_names = ["parent", "child"] from rfl]
  rw [List.foldl_cons, List.foldl_cons, List.foldl_nil]
  have h1 : processTable envBig [(resolvedRoot envBig, rootExtract envBig)] "parent" =
      [(resolvedRoot envBig, rootExtract envBig)] := by
    unfold processTable
    rw [show ("parent" == resolvedRoot envBig) = true from by decide]
    simp
  rw [h1]
  rw [show resolvedRoot envBig = "parent" from by decide, rootExtract_envBig]
  have h2 := processTable_linked envBig [("parent", bigParentRows)] "child" "parent"
    "id" "pid" [] bigParentRows (by decide) (by decide) rfl
  have hne : ¬((distinctColumn bigParentRows "id").isEmpty = true) := by
    rw [distinct_bigParentRows]
    simp
  rw [h2, if_neg hne]
  have hmatch : fkMatch ((distinctColumn bigParentRows "id").take 10000) "pid"
      childRowBig = false := by
    unfold fkMatch childRowBig
    rw [show getCol [("pid", some (natKey 10000))] "pid" = some (natKey 10000) from rfl]
    rw [Bool.eq_false_iff]
    intro hc
    rw [contains_eq_true_iff, distinct_bigParentRows] at hc
    exact not_mem_distinct_big_take hc
  have hdbc : envBig.dbRows "child" = [childRowBig] := by
    simp [envBig]
  have hfilter : (envBig.dbRows "child").filter
      (fkMatch ((distinctColumn bigParentRows "id").take 10000) "pid") = [] := by
    rw [hdbc]
    simp [List.filter_cons, hmatch]
  rw [hfilter]
  simp

/-- C1 counterexample: with 10001 distinct extracted parent keys, the child
row referencing key 10000 has its FK value in the distinct set of the
extracted parent rows, the row cap is the 100000 default (so head-truncation
is not the cause), yet the child's extraction is empty — the claim's `every
child row whose FK column value is in that distinct set is fetched` fails,
because only the first 10000 distinct values are used. -/
theorem C1_counterexample :
    ((run_subset_extract envBig).lookup "child") = some [] ∧
    getCol childRowBig "pid" = some (natKey 10000) ∧
    natKey 10000 ∈ distinctColumn
      (((run_subset_extract envBig).lookup "parent").getD []) "id" ∧
    childRowBig ∈ envBig.dbRows "child" ∧
    rowLimit envBig "child" = 100000 := by
  refine ⟨?_, rfl, ?_, ?_, by simp [rowLimit, defaultMax, envBig]⟩
  · rw [run_envBig]
    simp [List.lookup]
  · rw [run_envBig]
    simp only [List.lookup_cons_self, Option.getD_some]
    rw [distinct_bigParentRows]
    exact mem_distinct_big
  · have hdbc : envBig.dbRows "child" = [childRowBig] := by
      simp [envBig]
    rw [hdbc]
    exact List.mem_singleton_self _

/-- The spec's two-table example: parent keys 1,2,3; child rows referencing
1,2,9. -/
def parentRowsW : List Row :=
  [[("id", some (Val.int 1))], [("id", some (Val.int 2))], [("id", some (Val.int 3))]]

/-- Two-table schema for the spec's single-hop referential example. -/
def envW : SubsetEnv :=
  { table_names := ["parent", "child"]
    fk_map := [("child", [("parent", "id", "pid")])]
    dbRows := fun t =>
      if t == "parent" then parentRowsW
      else if t == "child" then
        [[("pid", some (Val.int 1))], [("pid", some (Val.int 2))], [("pid", some (Val.int 9))]]
      else []
    root_table := "parent"
    filters := []
    max_rows := [] }

/-- C1 witness: on the spec's example the linked child extraction keeps
exactly the rows referencing extracted parent keys 1 and 2, excluding the row
referencing 9. -/
theorem C1_witness :
    processTable envW [("parent", parentRowsW)] "child" =
      [("parent", parentRowsW),
       ("child", [[("pid", some (Val.int 1))], [("pid", some (Val.int 2))]])] := by
  have h := (C1_single_hop_link envW [("parent", parentRowsW)] "child" "parent" "id"
    "pid" [] parentRowsW (by decide) (by decide) rfl).2.1 (by decide)
  rw [h]
  decide

/-- C10 witness: the concrete 10001-key instance, via the theorem. -/
theorem C10_witness :
    childRowBig ∉
      ((processTable envBig [("parent", bigParentRows)] "child").lookup "child").getD [] :=
  C10_first_10000_parent_keys envBig [("parent", bigParentRows)] "child" "parent" "id"
    "pid" [] bigParentRows childRowBig (natKey 10000) (by decide) (by decide) rfl rfl rfl
    (by rw [distinct_bigParentRows]; exact mem_distinct_big)
    (by rw [distinct_bigParentRows]; exact not_mem_distinct_big_take)

/-- Three-table schema enumerated `a, c, b` with root `a` and an FK edge
`c -> b`: when `c` is processed its parent `b` is not yet extracted. -/
def envDisc : SubsetEnv :=
  { table_names := ["a", "c", "b"]
    fk_map := [("c", [("b", "id", "bid")])]
    dbRows := fun t =>
      if t == "a" then [[("x", some (Val.int 1))]]
      else if t == "b" then [[("id", some (Val.int 1))]]
      else if t == "c" then [[("bid", some (Val.int 1))]]
      else []
    root_table := "a"
    filters := []
    max_rows := [] }

/-- C4 counterexample: table `c` has no incoming FK edge to an
already-extracted table at its turn (its only edge's parent `b` comes later
in enumeration order), its source table is non-empty and its query succeeds
(queries are total here), yet `c` is absent from the extraction — it is not
treated as edge-less and extracted directly, contradicting the claim. -/
theorem C4_counterexample :
    (run_subset_extract envDisc).lookup "c" = none ∧ envDisc.dbRows "c" ≠ [] := by
  constructor
  · decide
  · decide

/-- C4 witness: the amended behaviour on the same schema — `c` (parent not
yet extracted) is skipped, while `b` (no FK edges) is extracted directly. -/
theorem C4_witness :
    processTable envDisc [("a", [[("x", some (Val.int 1))]])] "c" =
      [("a", [[("x", some (Val.int 1))]])] ∧
    processTable envDisc [("a", [[("x", some (Val.int 1))]])] "b" =
      [("a", [[("x", some (Val.int 1))]])] ++ [("b", [[("id", some (Val.int 1))]])] := by
  constructor
  · exact (C4_edgeless_and_skipped envDisc [("a", [[("x", some (Val.int 1))]])] "c"
      (by decide)).2 "b" "id" "bid" [] (by decide) rfl
  · have h := (C4_edgeless_and_skipped envDisc [("a", [[("x", some (Val.int 1))]])] "b"
      (by decide)).1 (by decide)
    rw [h]
    decide

/-! ## Job-row status and finished_at writes

`run_subset` and `execute_workflow` mutate the same `Job` row when the
workflow passes its own `job_id` to the subset step
(`workflow_orchestrator.py:408`).  The writes each code path performs on the
row are embedded as an explicit event trace: `run_subset` marks the job
failed without `finished_at` when the schema version is missing
(`subsetting.py:70-72`) or on exception (`subsetting.py:177-183`), and marks
it completed with `finished_at` on success (`subsetting.py:167-169`);
`execute_workflow` creates the row as running
(`workflow_orchestrator.py:148-163`) and, since every step's exception is
caught inside its `_run_*` wrapper, finishes by setting completed and
`finished_at` (`workflow_orchestrator.py:259-260`). -/

/-- One write to the Job row. -/
inductive JobEv where
  | created (status : String)
  | setStatus (status : String)
  | setFin
deriving DecidableEq

/-- Outcome of a `run_subset` call: schema version missing (returns normally,
job failed), success, or an exception (re-raised after marking the job
failed). -/
inductive SubsetOutcome where
  | schemaNotFound
  | ok
  | exn
deriving DecidableEq, Fintype

/-- Job-row writes of `run_subset` when called with an existing `job_id`. -/
def subsetJobEvents : SubsetOutcome → List JobEv
  | SubsetOutcome.schemaNotFound => [JobEv.setStatus "failed"]
  | SubsetOutcome.ok => [JobEv.setStatus "completed", JobEv.setFin]
  | SubsetOutcome.exn => [JobEv.setStatus "failed"]

/-- Job-row writes of a standalone `run_subset` call (no `job_id`): the job is
created directly in `running` (`subsetting.py:53`). -/
def runSubsetStandaloneEvents (o : SubsetOutcome) : List JobEv :=
  JobEv.created "running" :: subsetJobEvents o

/-- Job-row writes of `execute_workflow` when the subset step (sharing the
workflow's `job_id`) is or is not among the operations; per-step exceptions
are caught by the `_run_*` wrappers, so the workflow reaches its completed
epilogue in every case. -/
def workflowJobEvents (subsetSelected : Bool) (o : SubsetOutcome) : List JobEv :=
  [JobEv.created "running"]
    ++ (if subsetSelected then subsetJobEvents o else [])
    ++ [JobEv.setStatus "completed", JobEv.setFin]

/-- The sequence of status values the row passes through. -/
def statusSeq (evs : List JobEv) : List String :=
  evs.filterMap fun e =>
    match e with
    | JobEv.created st => some st
    | JobEv.setStatus st => some st
    | JobEv.setFin => none

/-- A terminal job status. -/
def isTerminal (st : String) : Bool :=
  st == "completed" || st == "failed"

/-- Rank of a status in the monotonic order pending, running, terminal. -/
def statusRank (st : String) : Nat :=
  if st == "pending" then 0 else if st == "running" then 1 else 2

/-- The status sequence never decreases in rank. -/
def statusesMonotone : List String → Bool
  | [] => true
  | [_] => true
  | a :: b :: rest => decide (statusRank a ≤ statusRank b) && statusesMonotone (b :: rest)

/-- No transition out of a terminal status: once terminal, the status can only
be rewritten to itself. -/
def noTerminalEscape : List String → Bool
  | [] => true
  | [_] => true
  | a :: b :: rest => (!isTerminal a || (a == b)) && noTerminalEscape (b :: rest)

/-- How many times the trace assigns `finished_at`. -/
def finishedAtCount (evs : List JobEv) : Nat :=
  evs.countP fun e => e == JobEv.setFin

/-- C2 counterexample: in a workflow whose subset step succeeds against the
shared Job row, `finished_at` is assigned twice (once by `run_subset`, once by
the workflow epilogue); and in a workflow whose subset step fails (for
example, schema version not found), the row goes running, failed, completed —
a transition out of the terminal `failed` status. -/
theorem C2_counterexample :
    finishedAtCount (workflowJobEvents true SubsetOutcome.ok) = 2 ∧
    noTerminalEscape (statusSeq (workflowJobEvents true SubsetOutcome.schemaNotFound)) =
      false := by
  decide

/-- C2 (amended): a standalone `run_subset` job moves monotonically from
`running` (it is created in `running`, never `pending`) to a terminal status
and never leaves it, with `finished_at` stamped exactly once on success — but
zero times on the failure paths; and when a workflow runs subset as a step
against the same Job row, a successful subset leads to `finished_at` being
stamped twice, while a failed subset marks the row `failed` mid-run and the
workflow then overwrites it to `completed`, escaping the terminal status. -/
theorem C2_job_state_machine : ∀ (b : Bool) (o : SubsetOutcome),
    statusesMonotone (statusSeq (runSubsetStandaloneEvents o)) = true ∧
    noTerminalEscape (statusSeq (runSubsetStandaloneEvents o)) = true ∧
    finishedAtCount (runSubsetStandaloneEvents o) =
      (if o = SubsetOutcome.ok then 1 else 0) ∧
    finishedAtCount (workflowJobEvents b o) =
      (if b && o == SubsetOutcome.ok then 2 else 1) ∧
    noTerminalEscape (statusSeq (workflowJobEvents b o)) =
      (!b || o == SubsetOutcome.ok) := by
  decide

/-! ## Workflow orchestrator (`services/workflow_orchestrator.py`)

`execute_workflow` (lines 175-241) runs the selected steps in fixed order,
gating each on its required identifier and chaining identifiers between
steps.  Every `_run_*` wrapper catches its own exceptions and returns a
result dictionary, so the gating logic is pure; the leaf services are
modelled by environment-provided step results, and the success-path epilogue
(lines 259-262) marks the job completed. -/

/-- The result dictionary a `_run_*` wrapper returns. -/
structure StepRes where
  status : String
  dataset_version_id : Option String := none
  schema_version_id : Option String := none
  mode : Option String := none
deriving DecidableEq

/-- The identifiers the caller may pre-supply in `config`. -/
structure WorkflowConfig where
  schema_version_id : Option String := none
  dataset_version_id : Option String := none

/-- Leaf-service outcomes: the step results of the external collaborators,
the content-mode generator's return (None models the orchestrator's
`dataset_version_id is None` skip check at lines 486-488), and the dataset id
the other generation modes produce. -/
structure WorkflowEnv where
  discoverRes : StepRes
  piiRes : StepRes
  subsetRes : StepRes
  maskRes : StepRes
  provisionRes : StepRes
  contentGenResult : Option String
  genDatasetId : String

/-- Python `a or b` over optional strings: `None` and `""` are falsy. -/
def pyOr (a b : Option String) : Option String :=
  match a with
  | some st => if st == "" then b else some st
  | none => b

/-- `result["operations"].get(name, {}).get("dataset_version_id")`. -/
def stepDvid (steps : List (String × StepRes)) (name : String) : Option String :=
  match steps.lookup name with
  | some r => r.dataset_version_id
  | none => none

/-- `result["operations"].get(name, {}).get("schema_version_id")`. -/
def stepSvid (steps : List (String × StepRes)) (name : String) : Option String :=
  match steps.lookup name with
  | some r => r.schema_version_id
  | none => none

/-- `_run_discovery` (lines 304-344): raises (and catches) a `ValueError`
when no connection string is given, so it yields a failed result with no
schema id; otherwise the discovery service's result. -/
def runDiscovery (conn : Option String) (env : WorkflowEnv) : StepRes :=
  if strTruthy conn then env.discoverRes else { status := "failed" }

/-- `_run_synthetic` (lines 461-538): the generation mode is chosen by the
first truthy input in the order test-case content, URLs, domain,
schema-version id; with none present the raised `ValueError` is caught and a
failed result recorded.  In content mode a generator returning no dataset id
yields the skipped result (lines 486-488). -/
def runSynthetic (sv content : Option String) (urls : Option (List String))
    (dom : Option String) (env : WorkflowEnv) : StepRes :=
  if strTruthy content then
    match env.contentGenResult with
    | none => { status := "skipped", dataset_version_id := none, mode := some "skipped" }
    | some did => { status := "completed", dataset_version_id := some did,
                    mode := some "test_case_content" }
  else if listTruthy urls then
    { status := "completed", dataset_version_id := some env.genDatasetId,
      mode := some "test_cases" }
  else if strTruthy dom then
    { status := "completed", dataset_version_id := some env.genDatasetId,
      mode := some "domain" }
  else if strTruthy sv then
    { status := "completed", dataset_version_id := some env.genDatasetId,
      mode := some "schema" }
  else
    { status := "failed" }

/-- The dataset id handed to provisioning (lines 229-234): synthetic, then
mask, then subset, then the pre-supplied config value. -/
def provisionDvid (steps : List (String × StepRes)) (cfg : WorkflowConfig) :
    Option String :=
  pyOr (stepDvid steps "synthetic")
    (pyOr (stepDvid steps "mask") (pyOr (stepDvid steps "subset") cfg.dataset_version_id))

/-- The step-result map `result["operations"]` built by `execute_workflow`
(lines 175-241), in insertion order. -/
def execute_workflow_steps (operations : List String) (cfg : WorkflowConfig)
    (content : Option String) (urls : Option (List String)) (conn dom : Option String)
    (env : WorkflowEnv) : List (String × StepRes) :=
  let r1 := if operations.contains "discover" then
    [("discover", runDiscovery conn env)] else []
  let sv := pyOr (stepSvid r1 "discover") cfg.schema_version_id
  let r2 := if operations.contains "pii" && strTruthy sv then
    r1 ++ [("pii", env.piiRes)] else r1
  let r3 := if operations.contains "subset" && strTruthy sv then
    r2 ++ [("subset", env.subsetRes)] else r2
  let dvidMask := pyOr (stepDvid r3 "subset") cfg.dataset_version_id
  let r4 := if operations.contains "mask" && strTruthy dvidMask then
    r3 ++ [("mask", env.maskRes)] else r3
  let r5 := if operations.contains "synthetic" then
    r4 ++ [("synthetic", runSynthetic sv content urls dom env)] else r4
  let r6 := if operations.contains "provision" && strTruthy (provisionDvid r5 cfg) then
    r5 ++ [("provision", env.provisionRes)] else r5
  r6

/-- The workflow result: on the success path the job is marked completed and
the executed-operations list is the recorded step map's key list
(`job_context.operations = list(result["operations"].keys())`, line 246). -/
structure WorkflowOut where
  overall_status : String
  executed_operations : List String
  steps : List (String × StepRes)
deriving DecidableEq

/-- `execute_workflow` on its success path. -/
def execute_workflow (operations : List String) (cfg : WorkflowConfig)
    (content : Option String) (urls : Option (List String)) (conn dom : Option String)
    (env : WorkflowEnv) : WorkflowOut :=
  let steps := execute_workflow_steps operations cfg content urls conn dom env
  { overall_status := "completed"
    executed_operations := steps.map Prod.fst
    steps := steps }

/-- Python `or` keeps the first truthy operand. -/
theorem pyOr_of_truthy (a b : Option String) (h : strTruthy a = true) :
    pyOr a b = a := by
  cases a with
  | none => simp [strTruthy] at h
  | some st =>
    simp only [strTruthy, Bool.not_eq_true'] at h
    simp [pyOr, h]

/-- Python `or` falls through a falsy first operand. -/
theorem pyOr_of_falsy (a b : Option String) (h : strTruthy a = false) :
    pyOr a b = b := by
  cases a with
  | none => rfl
  | some st =>
    simp only [strTruthy, Bool.not_eq_false'] at h
    simp [pyOr, h]

/-- Falsy operands chain through Python `or`. -/
theorem strTruthy_pyOr_false (a b : Option String) (ha : strTruthy a = false)
    (hb : strTruthy b = false) : strTruthy (pyOr a b) = false := by
  rw [pyOr_of_falsy _ _ ha]
  exact hb

/-- C5 (amended): when no identifier ever materializes — none pre-supplied in
config, none producible by discovery, and no synthetic inputs — then for
EVERY selected operations list each identifier-gated step (`pii`, `subset`,
`mask`, `provision`) is skipped silently: absent from the executed
operations, with no error raised and the Job completing; but the `synthetic`
step has no identifier gate: whenever it is selected it is still attempted,
its `ValueError` is caught, and it appears in the executed operations as a
failed step, while the Job still completes. -/
theorem C5_precondition_gating (operations : List String) (cfg : WorkflowConfig)
    (content : Option String) (urls : Option (List String)) (conn dom : Option String)
    (env : WorkflowEnv)
    (h1 : strTruthy cfg.schema_version_id = false)
    (h2 : strTruthy env.discoverRes.schema_version_id = false)
    (h3 : strTruthy cfg.dataset_version_id = false)
    (h4 : strTruthy content = false) (h5 : listTruthy urls = false)
    (h6 : strTruthy dom = false) :
    "pii" ∉ (execute_workflow operations cfg content urls conn dom
        env).executed_operations ∧
    "subset" ∉ (execute_workflow operations cfg content urls conn dom
        env).executed_operations ∧
    "mask" ∉ (execute_workflow operations cfg content urls conn dom
        env).executed_operations ∧
    "provision" ∉ (execute_workflow operations cfg content urls conn dom
        env).executed_operations ∧
    (execute_workflow operations cfg content urls conn dom env).overall_status
        = "completed" ∧
    (operations.contains "synthetic" = true →
      "synthetic" ∈ (execute_workflow operations cfg content urls conn dom
          env).executed_operations ∧
      (execute_workflow operations cfg content urls conn dom env).steps.lookup
          "synthetic" = some { status := "failed" }) := by
  have hdiscSv : strTruthy (runDiscovery conn env).schema_version_id = false := by
    unfold runDiscovery
    by_cases hcn : strTruthy conn = true
    · rw [if_pos hcn]
      exact h2
    · rw [if_neg (by simp [hcn])]
      rfl
  have hnone : strTruthy none = false := rfl
  have hrs : ∀ sv0 : Option String, strTruthy sv0 = false →
      runSynthetic sv0 content urls dom env = { status := "failed" } := by
    intro sv0 hsv0
    simp [runSynthetic, h4, h5, h6, hsv0]
  have hsteps : execute_workflow_steps operations cfg content urls conn dom env =
      (if operations.contains "discover" then
        [("discover", runDiscovery conn env)] else [])
      ++ (if operations.contains "synthetic" then
        [("synthetic", ({ status := "failed" } : StepRes))] else []) := by
    by_cases hdisc : "discover" ∈ operations <;>
      by_cases hsyn : "synthetic" ∈ operations <;>
      simp [execute_workflow_steps, hdisc, hsyn, stepSvid, stepDvid, provisionDvid,
        List.lookup, h1, h3, hnone, hdiscSv, hrs, strTruthy_pyOr_false, pyOr_of_falsy]
  have hexec : (execute_workflow operations cfg content urls conn dom
      env).executed_operations =
      ((if operations.contains "discover" then
        [("discover", runDiscovery conn env)] else [])
      ++ (if operations.contains "synthetic" then
        [("synthetic", ({ status := "failed" } : StepRes))] else [])).map Prod.fst := by
    show (execute_workflow_steps operations cfg content urls conn dom
      env).map Prod.fst = _
    rw [hsteps]
  have hstepsS : (execute_workflow operations cfg content urls conn dom env).steps =
      (if operations.contains "discover" then
        [("discover", runDiscovery conn env)] else [])
      ++ (if operations.contains "synthetic" then
        [("synthetic", ({ status := "failed" } : StepRes))] else []) := by
    show execute_workflow_steps operations cfg content urls conn dom env = _
    exact hsteps
  refine ⟨?_, ?_, ?_, ?_, rfl, ?_⟩
  · rw [hexec]
    split_ifs <;> simp
  · rw [hexec]
    split_ifs <;> simp
  · rw [hexec]
    split_ifs <;> simp
  · rw [hexec]
    split_ifs <;> simp
  · intro hsyn
    rw [hexec, hstepsS, hsyn]
    constructor
    · split_ifs <;> simp_all
    · split_ifs <;> simp_all [List.lookup]

/-- C5 counterexample: a workflow invoked with only `operations=["synthetic"]`
and no test-case content, URLs, domain or schema-version id anywhere: the
synthetic step's required input never materializes, yet the step is NOT
absent from the executed operations — it is recorded as a failed step
(while the Job still completes). -/
theorem C5_counterexample :
    (execute_workflow ["synthetic"] {} none none none none
      { discoverRes := { status := "completed" }, piiRes := { status := "completed" },
        subsetRes := { status := "completed" }, maskRes := { status := "completed" },
        provisionRes := { status := "completed" }, contentGenResult := none,
        genDatasetId := "g" }).executed_operations = ["synthetic"] ∧
    (execute_workflow ["synthetic"] {} none none none none
      { discoverRes := { status := "completed" }, piiRes := { status := "completed" },
        subsetRes := { status := "completed" }, maskRes := { status := "completed" },
        provisionRes := { status := "completed" }, contentGenResult := none,
        genDatasetId := "g" }).steps.lookup "synthetic" = some { status := "failed" } ∧
    (execute_workflow ["synthetic"] {} none none none none
      { discoverRes := { status := "completed" }, piiRes := { status := "completed" },
        subsetRes := { status := "completed" }, maskRes := { status := "completed" },
        provisionRes := { status := "completed" }, contentGenResult := none,
        genDatasetId := "g" }).overall_status = "completed" := by
  refine ⟨by decide, by decide, rfl⟩

/-- A fixed assignment of leaf-service results. -/
def envAny : WorkflowEnv :=
  { discoverRes := { status := "completed", schema_version_id := some "sv1" }
    piiRes := { status := "completed" }
    subsetRes := { status := "completed", dataset_version_id := some "ds-subset" }
    maskRes := { status := "completed", dataset_version_id := some "ds-mask" }
    provisionRes := { status := "completed" }
    contentGenResult := none
    genDatasetId := "ds-gen" }

/-- Leaf-service results producing no identifiers. -/
def envNoIds : WorkflowEnv :=
  { discoverRes := { status := "failed" }
    piiRes := { status := "completed" }
    subsetRes := { status := "completed" }
    maskRes := { status := "completed" }
    provisionRes := { status := "completed" }
    contentGenResult := none
    genDatasetId := "ds-gen" }

/-- C5 witness: a workflow selecting all four identifier-gated steps plus
synthetic, with no inputs, and the claim's `operations=["mask"]` invocation,
via the theorem. -/
theorem C5_witness :
    "pii" ∉ (execute_workflow ["pii", "subset", "mask", "provision", "synthetic"] {}
        none none none none envNoIds).executed_operations ∧
    "subset" ∉ (execute_workflow ["pii", "subset", "mask", "provision", "synthetic"] {}
        none none none none envNoIds).executed_operations ∧
    "mask" ∉ (execute_workflow ["pii", "subset", "mask", "provision", "synthetic"] {}
        none none none none envNoIds).executed_operations ∧
    "provision" ∉ (execute_workflow ["pii", "subset", "mask", "provision", "synthetic"] {}
        none none none none envNoIds).executed_operations ∧
    "synthetic" ∈ (execute_workflow ["pii", "subset", "mask", "provision", "synthetic"] {}
        none none none none envNoIds).executed_operations ∧
    (execute_workflow ["pii", "subset", "mask", "provision", "synthetic"] {}
        none none none none envNoIds).steps.lookup "synthetic"
        = some { status := "failed" } ∧
    "mask" ∉ (execute_workflow ["mask"] {} none none none none
        envNoIds).executed_operations ∧
    (execute_workflow ["mask"] {} none none none none envNoIds).overall_status
        = "completed" := by
  have h := C5_precondition_gating ["pii", "subset", "mask", "provision", "synthetic"]
    {} none none none none envNoIds rfl rfl rfl rfl rfl rfl
  have hm := C5_precondition_gating ["mask"] {} none none none none envNoIds
    rfl rfl rfl rfl rfl rfl
  exact ⟨h.1, h.2.1, h.2.2.1, h.2.2.2.1, (h.2.2.2.2.2 (by decide)).1,
    (h.2.2.2.2.2 (by decide)).2, hm.2.2.1, hm.2.2.2.2.1⟩

/-- C9: the synthetic step's generation mode is chosen by the first truthy
input in the priority order test-case content, URLs, domain, schema-version
id (content mode may still be skipped when the generator returns no dataset
id); and the provision step's dataset-version id is the first truthy value
among the synthetic, mask and subset step results, falling back to the
pre-supplied config value. -/
theorem C9_priority_orders (sv content : Option String) (urls : Option (List String))
    (dom : Option String) (env : WorkflowEnv) (steps : List (String × StepRes))
    (cfg : WorkflowConfig) :
    (strTruthy content = true →
      (runSynthetic sv content urls dom env).mode =
        some (match env.contentGenResult with
          | none => "skipped"
          | some _ => "test_case_content")) ∧
    (strTruthy content = false → listTruthy urls = true →
      (runSynthetic sv content urls dom env).mode = some "test_cases") ∧
    (strTruthy content = false → listTruthy urls = false → strTruthy dom = true →
      (runSynthetic sv content urls dom env).mode = some "domain") ∧
    (strTruthy content = false → listTruthy urls = false → strTruthy dom = false →
      strTruthy sv = true →
      (runSynthetic sv content urls dom env).mode = some "schema") ∧
    (strTruthy content = false → listTruthy urls = false → strTruthy dom = false →
      strTruthy sv = false →
      (runSynthetic sv content urls dom env).status = "failed") ∧
    (strTruthy (stepDvid steps "synthetic") = true →
      provisionDvid steps cfg = stepDvid steps "synthetic") ∧
    (strTruthy (stepDvid steps "synthetic") = false →
     strTruthy (stepDvid steps "mask") = true →
      provisionDvid steps cfg = stepDvid steps "mask") ∧
    (strTruthy (stepDvid steps "synthetic") = false →
     strTruthy (stepDvid steps "mask") = false →
     strTruthy (stepDvid steps "subset") = true →
      provisionDvid steps cfg = stepDvid steps "subset") ∧
    (strTruthy (stepDvid steps "synthetic") = false →
     strTruthy (stepDvid steps "mask") = false →
     strTruthy (stepDvid steps "subset") = false →
      provisionDvid steps cfg = cfg.dataset_version_id) := by
  refine ⟨?_, ?_, ?_, ?_, ?_, ?_, ?_, ?_, ?_⟩
  · intro h1
    cases henv : env.contentGenResult <;> simp [runSynthetic, h1, henv]
  · intro h1 h2
    simp [runSynthetic, h1, h2]
  · intro h1 h2 h3
    simp [runSynthetic, h1, h2, h3]
  · intro h1 h2 h3 h4
    simp [runSynthetic, h1, h2, h3, h4]
  · intro h1 h2 h3 h4
    simp [runSynthetic, h1, h2, h3, h4]
  · intro h1
    rw [provisionDvid, pyOr_of_truthy _ _ h1]
  · intro h1 h2
    rw [provisionDvid, pyOr_of_falsy _ _ h1, pyOr_of_truthy _ _ h2]
  · intro h1 h2 h3
    rw [provisionDvid, pyOr_of_falsy _ _ h1, pyOr_of_falsy _ _ h2,
      pyOr_of_truthy _ _ h3]
  · intro h1 h2 h3
    rw [provisionDvid, pyOr_of_falsy _ _ h1, pyOr_of_falsy _ _ h2,
      pyOr_of_falsy _ _ h3]

/-- A concrete completed subset step result. -/
def subsetResAny : StepRes :=
  { status := "completed", dataset_version_id := some "ds-subset" }

/-- C9 witness: concrete mode selections and a concrete id chain. -/
theorem C9_witness :
    (runSynthetic (some "sv1") (some "Enter email as x") none none envAny).mode
        = some "skipped" ∧
    (runSynthetic (some "sv1") none (some ["https://shop.example"]) none envAny).mode
        = some "test_cases" ∧
    provisionDvid [("subset", subsetResAny)] {} = some "ds-subset" := by
  have h1 := (C9_priority_orders (some "sv1") (some "Enter email as x") none none envAny
    [] {}).1 (by decide)
  have h2 := (C9_priority_orders (some "sv1") none (some ["https://shop.example"]) none
    envAny [] {}).2.1 (by decide) (by decide)
  have h3 := (C9_priority_orders none none none none envAny
    [("subset", subsetResAny)] {}).2.2.2.2.2.2.2.1 (by decide) (by decide) (by decide)
  exact ⟨h1, h2, h3.trans (by decide)⟩

/-! ## Fallback layer (`services/fallbacks.py`) -/

/-- The crawler's result dictionary, reduced to its truthiness-relevant
content: the entity list (`result and result.get("entities")`). -/
structure CrawlSchema where
  entities : List String
deriving DecidableEq

/-- A recorded fallback event `{step, error|reason}`. -/
structure FallbackEvent where
  step : String
  error : Option String := none
  reason : Option String := none
deriving DecidableEq

/-- Stages 2 and 3 of `with_crawl_fallbacks` (lines 27-42): the headful
attempt, then the domain-pack fallback.  `crawl_fn` may raise (`Except.error`)
or return a possibly-None result; a result without entities falls through
without recording an event, exactly as the source's `if result and
result.get("entities")` guard. -/
def crawl_headful_stage (events : List FallbackEvent)
    (crawl_fn : Bool → Except String (Option CrawlSchema))
    (domainPack : CrawlSchema) : CrawlSchema × List FallbackEvent :=
  match crawl_fn false with
  | Except.ok (some s) =>
    if !s.entities.isEmpty then
      (s, events ++ [{ step := "playwright_headful", reason := some "headless failed" }])
    else
      (domainPack, events ++ [{ step := "domain_pack", reason := some "crawl unavailable" }])
  | Except.ok none =>
    (domainPack, events ++ [{ step := "domain_pack", reason := some "crawl unavailable" }])
  | Except.error e =>
    (domainPack, events ++ [{ step := "playwright_headful", error := some e },
      { step := "domain_pack", reason := some "crawl unavailable" }])

/-- `with_crawl_fallbacks` (lines 11-42): headless attempt, then the headful
and domain-pack stages.  The second component is the `fallbacks_used` list. -/
def with_crawl_fallbacks (crawl_fn : Bool → Except String (Option CrawlSchema))
    (domainPack : CrawlSchema) : CrawlSchema × List FallbackEvent :=
  match crawl_fn true with
  | Except.ok (some s) =>
    if !s.entities.isEmpty then (s, [])
    else crawl_headful_stage [] crawl_fn domainPack
  | Except.ok none => crawl_headful_stage [] crawl_fn domainPack
  | Except.error e =>
    crawl_headful_stage [{ step := "playwright_headless", error := some e }]
      crawl_fn domainPack

/-- `with_synthetic_fallbacks` (lines 45-56): on any primary exception, call
the fallback with the same arguments; no event is recorded. -/
def with_synthetic_fallbacks {α β : Type} (primary_fn fallback_fn : α → Except String β)
    (a : α) : Except String β :=
  match primary_fn a with
  | Except.ok v => Except.ok v
  | Except.error _ => fallback_fn a

/-- C6 counterexample: a primary (headless) strategy that always raises and a
secondary (headful) strategy that always succeeds with entities yield the
secondary's schema together with TWO recorded fallback events, not exactly
one. -/
theorem C6_counterexample :
    (with_crawl_fallbacks
      (fun headless => if headless then Except.error "boom"
        else Except.ok (some { entities := ["product"] }))
      { entities := [] }).2.length = 2 ∧
    (with_crawl_fallbacks
      (fun headless => if headless then Except.error "boom"
        else Except.ok (some { entities := ["product"] }))
      { entities := [] }).1 = { entities := ["product"] } ∧
    ¬((with_crawl_fallbacks
      (fun headless => if headless then Except.error "boom"
        else Except.ok (some { entities := ["product"] }))
      { entities := [] }).2.length = 1) := by
  refine ⟨rfl, rfl, by decide⟩

/-- C6 (amended): with a primary that always raises error `e` and a secondary
that always succeeds with a non-empty entity list, the crawl wrapper returns
the secondary's result together with two recorded events — one carrying the
primary's error and one recording that the secondary ran because the primary
failed; and the synthetic wrapper returns the secondary's result recording no
fallback event at all (it has no event mechanism). -/
theorem C6_fallback_events (e : String) (s pack : CrawlSchema)
    (hs : s.entities ≠ []) :
    with_crawl_fallbacks
        (fun headless => if headless then Except.error e else Except.ok (some s))
        pack =
      (s, [{ step := "playwright_headless", error := some e },
           { step := "playwright_headful", reason := some "headless failed" }]) ∧
    (∀ {α β : Type} (p f : α → Except String β) (a : α) (err : String) (v : β),
      p a = Except.error err → f a = Except.ok v →
      with_synthetic_fallbacks p f a = Except.ok v) := by
  constructor
  · have hne : s.entities.isEmpty = false := by
      rw [List.isEmpty_eq_false]
      exact hs
    simp [with_crawl_fallbacks, crawl_headful_stage, hne]
  · intro α β p f a err v hp hf
    rw [with_synthetic_fallbacks, hp, hf]

/-- C6 witness: the amended behaviour at concrete strategies. -/
theorem C6_witness :
    with_crawl_fallbacks
        (fun headless => if headless then Except.error "boom"
          else Except.ok (some { entities := ["product"] }))
        { entities := [] } =
      ({ entities := ["product"] },
       [{ step := "playwright_headless", error := some "boom" },
        { step := "playwright_headful", reason := some "headless failed" }]) ∧
    with_synthetic_fallbacks (fun _ : Unit => (Except.error "boom" : Except String Nat))
      (fun _ => Except.ok 7) () = Except.ok 7 := by
  have h := C6_fallback_events "boom" { entities := ["product"] } { entities := [] }
    (by decide)
  exact ⟨h.1, h.2 _ _ () "boom" 7 rfl rfl⟩

end TDM
